import Mathlib

/-!
Verification of `cv-analyzer-backend` (`src/server.js`) against its
natural-language specification.  The JavaScript helpers are shallowly
embedded below: strings become `List Char` (one entry per UTF-16 unit of
the original; all characters involved lie in the BMP, so the unit/code
point distinction is immaterial), JS numbers become `ℚ` (every arithmetic
step the claims touch is exact in IEEE double precision at the magnitudes
the server can produce, so the idealisation is faithful), JS values become
the inductive `JSValue`, and code that can throw returns `Except`.
-/

namespace CvAnalyzer

/-! ## Character classes and trimming (JS `\s`, `String.prototype.trim`) -/

/-- The JS whitespace class `\s` (also the set stripped by `trim`):
WhiteSpace ∪ LineTerminator per ECMA-262. -/
def isJsWs (c : Char) : Bool :=
  let n := c.toNat
  n = 0x09 ∨ n = 0x0a ∨ n = 0x0b ∨ n = 0x0c ∨ n = 0x0d ∨ n = 0x20 ∨
  n = 0xa0 ∨ n = 0x1680 ∨ (0x2000 ≤ n ∧ n ≤ 0x200a) ∨
  n = 0x2028 ∨ n = 0x2029 ∨ n = 0x202f ∨ n = 0x205f ∨ n = 0x3000 ∨ n = 0xfeff

/-- JS `String.prototype.trim`: strip `isJsWs` from both ends. -/
def jsTrim (s : List Char) : List Char :=
  (s.dropWhile isJsWs).rdropWhile isJsWs

/-- `str.replace(/^﻿/, '')`: drop a single leading byte-order mark. -/
def stripBOM (s : List Char) : List Char :=
  match s with
  | c :: rest => if c.toNat = 0xfeff then rest else s
  | [] => []

/-! ## `clampText` (server.js lines 43–46)

```js
const clampText = (str, max) => {
  const s = String(str || '');
  return s.length > max ? s.slice(0, max) + '…' : s;
};
```
All call sites the claims touch pass a string, on which `String(str || '')`
is the identity (`''` is falsy but `String('')` is again `''`), so the
embedding takes the string directly. -/

def clampText (s : List Char) (max : Nat) : List Char :=
  if max < s.length then s.take max ++ ['…'] else s

/-! ## `jaccard` (server.js lines 282–287)

```js
const jaccard = (arrA = [], arrB = []) => {
  const A = new Set(arrA), B = new Set(arrB);
  const inter = [...A].filter(x => B.has(x)).length;
  const uni = new Set([...A, ...B]).size || 1;
  return inter / uni; // 0..1
};
```
`Set` sizes are exactly `Finset` cardinalities; `|| 1` floors a zero union
size at one. -/

def jaccard (arrA arrB : List String) : ℚ :=
  let A := arrA.toFinset
  let B := arrB.toFinset
  let inter := (A ∩ B).card
  let uni := max (A ∪ B).card 1
  (inter : ℚ) / (uni : ℚ)

/-! ## Industry keyword table and detection (server.js lines 580–626) -/

def INDUSTRY_KEYWORDS : List (String × List String) := [
  ("IT", ["programista","developer","frontend","backend","fullstack","javascript","python","java","software","it","devops","kubernetes","docker","cloud"]),
  ("Finanse", ["księgowy","finanse","rachunkowość","audyt","bankowość","analiza finansowa","inwestycje","fp&a","controlling"]),
  ("Marketing", ["marketing","social media","kampania","reklama","seo","sem","content"]),
  ("Sprzedaż", ["sprzedawca","sales","account manager","klient","handel","negocjacje"]),
  ("HR", ["rekrutacja","hr","kadry","zasoby ludzkie","onboarding"]),
  ("Logistyka", ["logistyka","transport","magazyn","łańcuch dostaw","spedycja"]),
  ("Inżynieria", ["inżynier","projektowanie","mechanika","budowa maszyn","automatyka","cnc"]),
  ("Prawo", ["prawnik","radca prawny","adwokat","prawo","umowa","kodeks"]),
  ("Zdrowie", ["lekarz","pielęgniarka","medycyna","szpital","pacjent","rehabilitacja"]),
  ("Edukacja", ["nauczyciel","wykładowca","szkolenie","edukacja","kurs","uczeń"]),
  ("Consulting", ["konsultant","doradztwo","strategia","analiza biznesowa"]),
  ("Inne", [])]

/-- JS `hay.includes(needle)`: `needle` occurs contiguously in `hay`. -/
def hasSub (needle : List Char) : List Char → Bool
  | [] => needle.isEmpty
  | c :: rest => needle.isPrefixOf (c :: rest) || hasSub needle rest

/-- `keywords.some(keyword => pageText.includes(keyword))` for one table
entry, then the first matching entry of the table
(`for ... of Object.entries` in insertion order with `break`). -/
def matchEntry (page : String) : Option String :=
  (INDUSTRY_KEYWORDS.find? fun e =>
    e.2.any fun kw => hasSub kw.data page.data).map Prod.fst

/-- The detection loop of `POST /api/detect-industry`: pages are the
lower-cased fetched bodies (`''` for a failed fetch, skipped by
`if (!pageText) continue`); the first page with a matching table entry
decides, otherwise the result stays `''`. -/
def detectIndustry : List String → String
  | [] => ""
  | p :: rest =>
    if p = "" then detectIndustry rest
    else
      match matchEntry p with
      | some name => name
      | none => detectIndustry rest

/-! ## JS values

A JS value as far as the server manipulates one: `undefined` is `undefined`,
`num` idealises a double as an exact rational, objects are ordered field
lists (later duplicates shadow earlier ones, as after `JSON.parse`). -/

inductive JSValue where
  | undefined
  | null
  | bool (b : Bool)
  | num (q : ℚ)
  | str (s : String)
  | arr (xs : List JSValue)
  | obj (fs : List (String × JSValue))

/-- JS truthiness (`Boolean(v)`); `NaN` never arises in the embedded code. -/
def truthy : JSValue → Bool
  | .undefined => false
  | .null => false
  | .bool b => b
  | .num q => q ≠ 0
  | .str s => s ≠ ""
  | .arr _ => true
  | .obj _ => true

/-- Own-property lookup on an object field list; with duplicate keys the
last one wins, matching a JS object built by `JSON.parse`. -/
def lookupField (fs : List (String × JSValue)) (k : String) : JSValue :=
  match fs.reverse.find? (fun p => p.1 == k) with
  | some p => p.2
  | none => .undefined

/-- Plain member access `v.k`: throws a `TypeError` on `null`/`undefined`,
is `undefined` on primitives (they box to objects without these keys). -/
def getProp (v : JSValue) (k : String) : Except Unit JSValue :=
  match v with
  | .undefined => .error ()
  | .null => .error ()
  | .obj fs => .ok (lookupField fs k)
  | _ => .ok .undefined

/-- Optional-chain access `v?.k`: `undefined` instead of throwing. -/
def optChain (v : JSValue) (k : String) : JSValue :=
  match v with
  | .undefined => .undefined
  | .null => .undefined
  | .obj fs => lookupField fs k
  | _ => .undefined

/-- Property assignment `v.k = x` on an object (the only shape the embedded
call sites reach): replace an existing key in place, else append. -/
def setField (v : JSValue) (k : String) (x : JSValue) : JSValue :=
  match v with
  | .obj fs =>
    .obj (if fs.any (fun p => p.1 == k)
          then fs.map (fun p => if p.1 == k then (k, x) else p)
          else fs ++ [(k, x)])
  | w => w

/-- `Array.isArray(v) ? v : []` (the shape coercion in `ensureAnalysisShape`). -/
def toArr : JSValue → JSValue
  | .arr xs => .arr xs
  | _ => .arr []

/-- JS `String(v)` as the embedded call sites can reach it.  Strings pass
through; the remaining cases follow `ToString`/`Array.prototype.toString`.
Integer-valued numbers render exactly; a non-integral double's shortest
decimal form is outside this model and is rendered as `num:p/q` (no claim
exercises it). -/
def jsToString : JSValue → String
  | .undefined => "undefined"
  | .null => "null"
  | .bool b => if b then "true" else "false"
  | .num q => if q.den = 1 then toString q.num else "num:" ++ toString q.num ++ "/" ++ toString q.den
  | .str s => s
  | .arr _ => "array"
  | .obj _ => "[object Object]"

/-! ## `ensureAnalysisShape` (server.js lines 171–181)

```js
const ensureAnalysisShape = (a = {}) => ({
  podsumowanie: a.podsumowanie || '',
  dopasowanie: {
    mocne_strony: Array.isArray(a?.dopasowanie?.mocne_strony) ? a.dopasowanie.mocne_strony : [],
    obszary_do_poprawy: Array.isArray(a?.dopasowanie?.obszary_do_poprawy) ? a.dopasowanie.obszary_do_poprawy : []
  },
  pytania: {
    kompetencje_miekkie: Array.isArray(a?.pytania?.kompetencje_miekkie) ? a.pytania.kompetencje_miekkie : [],
    kompetencje_twarde: Array.isArray(a?.pytania?.kompetencje_twarde) ? a.pytania.kompetencje_twarde : []
  }
});
```
The default parameter replaces only `undefined`; `a.podsumowanie` is a
plain access and throws on `null`, while the nested accesses use `?.`. -/

/-- The default parameter `(a = {})`: replaces `undefined` only. -/
def defaultedParam (a : JSValue) : JSValue :=
  match a with
  | .undefined => .obj []
  | x => x

def ensureAnalysisShape (a0 : JSValue) : Except Unit JSValue :=
  let a := defaultedParam a0
  match getProp a "podsumowanie" with
  | .error e => .error e
  | .ok pods =>
    let dop := optChain a "dopasowanie"
    let pyt := optChain a "pytania"
    .ok (.obj [
      ("podsumowanie", if truthy pods then pods else .str ""),
      ("dopasowanie", .obj [
        ("mocne_strony", toArr (optChain dop "mocne_strony")),
        ("obszary_do_poprawy", toArr (optChain dop "obszary_do_poprawy"))]),
      ("pytania", .obj [
        ("kompetencje_miekkie", toArr (optChain pyt "kompetencje_miekkie")),
        ("kompetencje_twarde", toArr (optChain pyt "kompetencje_twarde"))])])

/-! ## `sanitizeStringArray` (server.js lines 182–185)

```js
const sanitizeStringArray = (arr, maxLen) => {
  if (!Array.isArray(arr)) return [];
  return arr.map(x => clampText(String(x || '').trim(), maxLen)).filter(Boolean);
};
```
-/

/-- The per-element transform `clampText(String(x || '').trim(), maxLen)`. -/
def sanitizeItem (x : JSValue) (maxLen : Nat) : List Char :=
  clampText (jsTrim (if truthy x then (jsToString x).data else [])) maxLen

def sanitizeStringArray (v : JSValue) (maxLen : Nat) : List (List Char) :=
  match v with
  | .arr xs => (xs.map (fun x => sanitizeItem x maxLen)).filter (fun s => !s.isEmpty)
  | _ => []

/-! ## `JSON.parse`

The runtime's JSON parser, modelled as a fuel-indexed recursive-descent
parser over the grammar of RFC 8259 (the grammar `JSON.parse` accepts):
`null | true | false | number | string | array | object`, with the four
JSON whitespace characters between tokens, escape sequences in strings,
unescaped control characters refused, and no leading zeros in numbers. -/

def isJsonWs (c : Char) : Bool :=
  c = ' ' ∨ c = '\t' ∨ c = '\n' ∨ c = '\r'

def isDigit (c : Char) : Bool := '0' ≤ c ∧ c ≤ '9'

def hexVal (c : Char) : Option Nat :=
  if '0' ≤ c ∧ c ≤ '9' then some (c.toNat - 48)
  else if 'a' ≤ c ∧ c ≤ 'f' then some (c.toNat - 87)
  else if 'A' ≤ c ∧ c ≤ 'F' then some (c.toNat - 55)
  else none

def digitsToNat (ds : List Char) : Nat :=
  ds.foldl (fun acc c => acc * 10 + (c.toNat - 48)) 0

/-- String body after the opening quote: returns content and the remainder
after the closing quote. -/
def parseStringBody : Nat → List Char → Option (List Char × List Char)
  | 0, _ => none
  | _, [] => none
  | fuel+1, c :: rest =>
    if c = '"' then some ([], rest)
    else if c = '\\' then
      match rest with
      | [] => none
      | e :: rest2 =>
        let cont := fun (ch : Char) (r : List Char) =>
          (parseStringBody fuel r).map (fun p => (ch :: p.1, p.2))
        if e = '"' then cont '"' rest2
        else if e = '\\' then cont '\\' rest2
        else if e = '/' then cont '/' rest2
        else if e = 'b' then cont '\x08' rest2
        else if e = 'f' then cont '\x0c' rest2
        else if e = 'n' then cont '\n' rest2
        else if e = 'r' then cont '\r' rest2
        else if e = 't' then cont '\t' rest2
        else if e = 'u' then
          match rest2 with
          | h1 :: h2 :: h3 :: h4 :: rest3 =>
            match hexVal h1, hexVal h2, hexVal h3, hexVal h4 with
            | some a, some b, some c3, some d =>
              cont (Char.ofNat (((a * 16 + b) * 16 + c3) * 16 + d)) rest3
            | _, _, _, _ => none
          | _ => none
        else none
    else if c.toNat < 0x20 then none
    else (parseStringBody fuel rest).map (fun p => (c :: p.1, p.2))

/-- The exact rational value `sgn · mant · 10^(-scale) · 10^e`, built with
`mkRat` over integer arithmetic (equal to the idealised double value). -/
def numValue (sgn : Int) (mant : Nat) (scale : Nat) (e : Int) : ℚ :=
  mkRat (sgn * mant * (10 : Int) ^ e.toNat) (10 ^ scale * 10 ^ (-e).toNat)

/-- JSON number: `-?(0|[1-9][0-9]*)(\.[0-9]+)?([eE][+-]?[0-9]+)?`, valued
exactly in `ℚ`. -/
def parseNumber (cs : List Char) : Option (ℚ × List Char) :=
  let sgncs : Int × List Char :=
    match cs with
    | '-' :: rest => (-1, rest)
    | _ => (1, cs)
  let sgn := sgncs.1
  let cs1 := sgncs.2
  let intDigits := cs1.takeWhile isDigit
  let cs2 := cs1.dropWhile isDigit
  if intDigits.isEmpty then none
  else if 1 < intDigits.length ∧ intDigits.headD '1' = '0' then none
  else
    let step2 : Option ((Nat × Nat) × List Char) :=
      match cs2 with
      | '.' :: rest =>
        let fds := rest.takeWhile isDigit
        if fds.isEmpty then none
        else some ((digitsToNat intDigits * 10 ^ fds.length + digitsToNat fds,
                    fds.length), rest.dropWhile isDigit)
      | _ => some ((digitsToNat intDigits, 0), cs2)
    match step2 with
    | none => none
    | some ((mant, scale), cs3) =>
      match cs3 with
      | 'e' :: rest | 'E' :: rest =>
        let esgnrest : Int × List Char :=
          match rest with
          | '+' :: r => (1, r)
          | '-' :: r => (-1, r)
          | _ => (1, rest)
        let eds := esgnrest.2.takeWhile isDigit
        if eds.isEmpty then none
        else some (numValue sgn mant scale (esgnrest.1 * (digitsToNat eds : Int)),
                   esgnrest.2.dropWhile isDigit)
      | _ => some (numValue sgn mant scale 0, cs3)

mutual

def parseValue : Nat → List Char → Option (JSValue × List Char)
  | 0, _ => none
  | fuel+1, cs0 =>
    let cs := cs0.dropWhile isJsonWs
    match cs with
    | [] => none
    | c :: rest =>
      if c = '{' then
        let rest1 := rest.dropWhile isJsonWs
        match rest1 with
        | '}' :: r => some (.obj [], r)
        | _ => (parseMembers fuel rest1).map (fun p => (JSValue.obj p.1, p.2))
      else if c = '[' then
        let rest1 := rest.dropWhile isJsonWs
        match rest1 with
        | ']' :: r => some (.arr [], r)
        | _ => (parseItems fuel rest1).map (fun p => (JSValue.arr p.1, p.2))
      else if c = '"' then
        (parseStringBody (rest.length + 1) rest).map
          (fun p => (JSValue.str (String.mk p.1), p.2))
      else
        match cs with
        | 't' :: 'r' :: 'u' :: 'e' :: r => some (.bool true, r)
        | 'f' :: 'a' :: 'l' :: 's' :: 'e' :: r => some (.bool false, r)
        | 'n' :: 'u' :: 'l' :: 'l' :: r => some (.null, r)
        | _ => (parseNumber cs).map (fun p => (JSValue.num p.1, p.2))

def parseItems : Nat → List Char → Option (List JSValue × List Char)
  | 0, _ => none
  | fuel+1, cs =>
    match parseValue fuel cs with
    | none => none
    | some (v, rest) =>
      let rest1 := rest.dropWhile isJsonWs
      match rest1 with
      | ',' :: r => (parseItems fuel r).map (fun p => (v :: p.1, p.2))
      | ']' :: r => some ([v], r)
      | _ => none

def parseMembers : Nat → List Char → Option (List (String × JSValue) × List Char)
  | 0, _ => none
  | fuel+1, cs0 =>
    let cs := cs0.dropWhile isJsonWs
    match cs with
    | '"' :: rest =>
      match parseStringBody (rest.length + 1) rest with
      | none => none
      | some (kchars, rest2) =>
        let rest3 := rest2.dropWhile isJsonWs
        match rest3 with
        | ':' :: rest4 =>
          match parseValue fuel rest4 with
          | none => none
          | some (v, rest5) =>
            let rest6 := rest5.dropWhile isJsonWs
            match rest6 with
            | ',' :: r => (parseMembers fuel r).map
                (fun p => ((String.mk kchars, v) :: p.1, p.2))
            | '}' :: r => some ([(String.mk kchars, v)], r)
            | _ => none
        | _ => none
    | _ => none

end

/-- `JSON.parse` on a character list: one complete value, then only
whitespace. -/
def jsonParse (cs : List Char) : Option JSValue :=
  match parseValue (2 * cs.length + 2) cs with
  | some (v, rest) => if (rest.dropWhile isJsonWs).isEmpty then some v else none
  | none => none

/-! ## `cleanAndParse` (server.js lines 113–118)

```js
const cleanAndParse = (candidate) => {
  candidate = candidate.replace(/[“”„”]/g, '"').replace(/[‘’]/g, "'");
  candidate = candidate.replace(/,\s*(?=[}``​`])/g, '');
  candidate = candidate.replace(/\/\/[^\n\r]*/g, '').replace(/\/\*[\s\S]*?\*\//g, '');
  return JSON.parse(candidate);
};
```
The character class of the second replace is, byte for byte, `[}` followed
by three backticks and `]`: it matches `}` or a backtick, and does NOT
match `]`, so a trailing comma before a closing bracket survives. -/

def mapSmartQuotes (cs : List Char) : List Char :=
  cs.map fun c =>
    if c = '“' ∨ c = '”' ∨ c = '„' then '"'
    else if c = '‘' ∨ c = '’' then '\'' else c

/-- Membership in the source's literal lookahead class: `}` or a backtick
(code 96).  The class does not contain `]`. -/
def isCommaCloser (c : Char) : Bool := c = '}' ∨ c.toNat = 96

def removeTrailingCommas : Nat → List Char → List Char
  | 0, cs => cs
  | _, [] => []
  | fuel+1, c :: rest =>
    if c = ',' then
      let rest1 := rest.dropWhile isJsWs
      match rest1 with
      | d :: _ =>
        if isCommaCloser d then removeTrailingCommas fuel rest1
        else ',' :: removeTrailingCommas fuel rest
      | [] => ',' :: removeTrailingCommas fuel rest
    else c :: removeTrailingCommas fuel rest

def stripLineComments : Nat → List Char → List Char
  | 0, cs => cs
  | _, [] => []
  | fuel+1, c :: rest =>
    match c, rest with
    | '/', '/' :: rest2 =>
      stripLineComments fuel (rest2.dropWhile fun d => ¬ (d = '\n' ∨ d = '\r'))
    | _, _ => c :: stripLineComments fuel rest

/-- Position right after the first `*/`, if any. -/
def afterBlockClose : List Char → Option (List Char)
  | '*' :: '/' :: rest => some rest
  | _ :: rest => afterBlockClose rest
  | [] => none

def stripBlockComments : Nat → List Char → List Char
  | 0, cs => cs
  | _, [] => []
  | fuel+1, c :: rest =>
    match c, rest with
    | '/', '*' :: rest2 =>
      match afterBlockClose rest2 with
      | some r => stripBlockComments fuel r
      -- no `*/` anywhere later: the lazy regex can match nowhere else
      | none => c :: rest
    | _, _ => c :: stripBlockComments fuel rest

def cleanAndParse (candidate : List Char) : Option JSValue :=
  let c1 := mapSmartQuotes candidate
  let c2 := removeTrailingCommas (c1.length + 1) c1
  let c3 := stripLineComments (c2.length + 1) c2
  let c4 := stripBlockComments (c3.length + 1) c3
  jsonParse c4

/-! ## `findBalancedJSON` and `extractAndParseJSON` (server.js lines 104–169) -/

/-- First `{` or `[` of the text, with the suffix starting at it. -/
def findOpener : List Char → Option (Char × List Char)
  | [] => none
  | c :: rest => if c = '{' ∨ c = '[' then some (c, c :: rest) else findOpener rest

/-- The string-literal-aware depth walk of `findBalancedJSON`, started at
the first opener with depth 0; returns the span up to the character that
brings the depth back to zero. -/
def walkBal (op cl : Char) : Nat → List Char → Nat → Bool → Bool → List Char →
    Option (List Char)
  | 0, _, _, _, _, _ => none
  | _, [], _, _, _, _ => none
  | fuel+1, c :: rest, depth, inStr, esc, acc =>
    if inStr then
      if esc then walkBal op cl fuel rest depth true false (c :: acc)
      else if c = '\\' then walkBal op cl fuel rest depth true true (c :: acc)
      else if c = '"' then walkBal op cl fuel rest depth false false (c :: acc)
      else walkBal op cl fuel rest depth true false (c :: acc)
    else if c = '"' then walkBal op cl fuel rest depth true false (c :: acc)
    else
      let d1 := if c = op then depth + 1 else depth
      let d2 := if c = cl then d1 - 1 else d1
      if d2 = 0 then some (c :: acc).reverse
      else walkBal op cl fuel rest d2 false false (c :: acc)

def findBalancedJSON (s : List Char) : Option (List Char) :=
  match findOpener s with
  | none => none
  | some (op, suffix) =>
    let cl := if op = '{' then '}' else ']'
    walkBal op cl (suffix.length + 1) suffix 0 false false []

def firstIdx (c : Char) : List Char → Option Nat
  | [] => none
  | d :: rest => if d = c then some 0 else (firstIdx c rest).map (· + 1)

def lastIdx (c : Char) (s : List Char) : Option Nat :=
  (firstIdx c s.reverse).map (fun i => s.length - 1 - i)

/-- `t.slice(t.indexOf(opc), t.lastIndexOf(clc) + 1)` guarded by
`start !== -1 && end !== -1 && end > start`. -/
def boundarySlice (t : List Char) (opc clc : Char) : Option (List Char) :=
  match firstIdx opc t, lastIdx clc t with
  | some s, some e => if s < e then some ((t.drop s).take (e + 1 - s)) else none
  | _, _ => none

/-- `if (t.startsWith('｀｀｀'))`: strip the leading fence (with optional
case-insensitive `json` tag and whitespace) and a trailing fence. -/
def stripFence (t : List Char) : List Char :=
  if ("```".data).isPrefixOf t then
    let t1 := t.drop 3
    let t2 := if (t1.take 4).map Char.toLower = "json".data then t1.drop 4 else t1
    let t3 := t2.dropWhile isJsWs
    if ("```".data).isPrefixOf t3.reverse then (t3.reverse.drop 3).reverse else t3
  else t

inductive JErr where
  | emptyReply
  | unparsable
deriving DecidableEq

/-- The preprocessing of lines 106–111: BOM strip, trim, fence strip, trim. -/
def preprocessReply (input : List Char) : List Char :=
  jsTrim (stripFence (jsTrim (stripBOM input)))

/-- `extractAndParseJSON`: the full recovery chain — empty-reply check,
BOM/trim/fence preprocessing, direct `cleanAndParse`, the balanced-span
candidate, then the two naive boundary slices, else the unparsable error. -/
def extractAndParseJSON (input : List Char) : Except JErr JSValue :=
  if input.isEmpty then .error .emptyReply
  else
    let t := preprocessReply input
    match cleanAndParse t with
    | some v => .ok v
    | none =>
      let balanced : Option JSValue :=
        match findBalancedJSON t with
        | some cand => cleanAndParse cand
        | none => none
      match balanced with
      | some v => .ok v
      | none =>
        match (boundarySlice t '{' '}').bind cleanAndParse with
        | some v => .ok v
        | none =>
          match (boundarySlice t '[' ']').bind cleanAndParse with
          | some v => .ok v
          | none => .error .unparsable

/-! ## Limits (server.js lines 34–42) -/

def LIMITS_itemChars : Nat := 200
def LIMITS_jobSingleChars : Nat := 8000
def LIMITS_jobTotalChars : Nat := 20000

/-! ## Plan-based question counts (server.js lines 403–405 and 486–488)

```js
const isFree = String(plan).toLowerCase() === 'free';
const numSoft = isFree ? 2 : 7;
const numHard = isFree ? 2 : 10;
```
`toLowerCase` coincides with `Char.toLower` on the ASCII plan strings. -/

def isFreePlan (plan : String) : Bool :=
  plan.data.map Char.toLower = "free".data

def numSoftFor (plan : String) : Nat := if isFreePlan plan then 2 else 7
def numHardFor (plan : String) : Nat := if isFreePlan plan then 2 else 10

/-! ## `POST /api/generate-questions` normalization (server.js lines 424–429)

```js
let out = { pytania: { kompetencje_miekkie: [], kompetencje_twarde: [] } };
try { out = extractAndParseJSON(llmRaw); } catch {}
out.pytania = out.pytania || {};
out.pytania.kompetencje_miekkie = sanitizeStringArray(out.pytania.kompetencje_miekkie, LIMITS.itemChars).slice(0, numSoft);
out.pytania.kompetencje_twarde = sanitizeStringArray(out.pytania.kompetencje_twarde, LIMITS.itemChars).slice(0, numHard);
```
Module code runs in strict mode, so `out.pytania = …` on a primitive `out`
throws a `TypeError` (and a property read on `null` does too); both land in
the endpoint's outer catch, modelled as `.error ()`. -/

def genQuestionsFromOut (out : JSValue) (numSoft numHard : Nat) :
    Except Unit (List (List Char) × List (List Char)) :=
  match getProp out "pytania" with
  | .error e => .error e
  | .ok p0 =>
    let p := if truthy p0 then p0 else JSValue.obj []
    match out with
    | .bool _ => .error ()
    | .num _ => .error ()
    | .str _ => .error ()
    | _ =>
      .ok ((sanitizeStringArray (optChain p "kompetencje_miekkie") LIMITS_itemChars).take numSoft,
           (sanitizeStringArray (optChain p "kompetencje_twarde") LIMITS_itemChars).take numHard)

def genQuestions (llmRaw : List Char) (numSoft numHard : Nat) :
    Except Unit (List (List Char) × List (List Char)) :=
  genQuestionsFromOut
    (match extractAndParseJSON llmRaw with
     | .ok v => v
     | .error _ => .obj [("pytania", .obj [("kompetencje_miekkie", .arr []),
                                           ("kompetencje_twarde", .arr [])])])
    numSoft numHard

/-! ## `POST /api/analyze-cv-multiple` normalization and match percentage
(server.js lines 527–544) -/

/-- `Math.round` on the idealised double (exact for every value this server
can feed it; JS rounds halves up for non-negative arguments). -/
def jsMathRound (x : ℚ) : ℤ := ⌊x + 1/2⌋

/-- Lines 540–544: ratio of strengths to strengths+gaps, rounded, then
capped by the keyword-overlap percentage. -/
def matchPct (m o kw : Nat) : ℤ :=
  let total := m + o
  let base : ℤ := if 0 < total then jsMathRound ((m : ℚ) / (total : ℚ) * 100) else 0
  if kw < 10 then min base 35
  else if kw < 20 then min base 50
  else base

def listLen : JSValue → Nat
  | .arr xs => xs.length
  | _ => 0

/-- The element list of an array value (empty for non-arrays). -/
def arrOf : JSValue → List JSValue
  | .arr xs => xs
  | _ => []

/-- Whether a value is a JS object (in the narrow `{...}` sense). -/
def isObjVal : JSValue → Bool
  | .obj _ => true
  | _ => false

/-- The degraded placeholder of the catch branch (lines 532–537). -/
def degradedAnalysis (llmRaw : List Char) : JSValue :=
  match ensureAnalysisShape (.obj []) with
  | .ok a =>
    setField (setField a "podsumowanie"
      (.str "Nie udało się poprawnie sparsować odpowiedzi modelu. Surowa odpowiedź (skrót) w polu rawResponse."))
      "rawResponse" (.str (String.mk (llmRaw.take 2000)))
  | .error _ => .obj []

/-- Lines 527–544: parse-and-normalize with the degraded fallback, then the
deterministic `dopasowanie_procentowe` assignment.  The question lists are
not touched beyond `ensureAnalysisShape` on this endpoint. -/
def analyzeAnalysis (llmRaw : List Char) (kw : Nat) : JSValue :=
  let analysis : JSValue :=
    match extractAndParseJSON llmRaw with
    | .ok parsed =>
      match ensureAnalysisShape parsed with
      | .ok a => a
      | .error _ => degradedAnalysis llmRaw
    | .error _ => degradedAnalysis llmRaw
  let m := listLen (optChain (optChain analysis "dopasowanie") "mocne_strony")
  let o := listLen (optChain (optChain analysis "dopasowanie") "obszary_do_poprawy")
  setField analysis "dopasowanie_procentowe" (.num (matchPct m o kw : ℚ))

/-! ## Posting fetcher (server.js lines 188–205) and `combinedJD`
(lines 465–469)

```js
const getJobDescriptionWithReadability = async (url) => {
  try {
    const response = await axios.get(url, {..., timeout: 10000});
    const doc = new JSDOM(response.data, { url });
    const reader = new Readability(doc.window.document);
    const article = reader.parse();
    const textContent = article
      ? article.textContent.replace(/\s+/g, ' ').trim()
      : 'Nie udało się pobrać treści ogłoszenia.';
    return clampText(textContent, LIMITS.jobSingleChars);
  } catch (error) { ...; return 'Nie udało się pobrać treści ogłoszenia.'; }
};
```
The network and Readability are external collaborators; their combined
outcome for one URL is a `FetchOutcome`: `failure` is any thrown error
(network, timeout, non-2xx — axios throws on all of these), `success a`
is a completed fetch with `reader.parse()` returning `a`. -/

inductive FetchOutcome where
  | failure
  | success (article : Option String)

def SENTINEL_JD : String := "Nie udało się pobrać treści ogłoszenia."

/-- `.replace(/\s+/g, ' ')`: each maximal whitespace run becomes one space. -/
def collapseWs : Nat → List Char → List Char
  | 0, cs => cs
  | _, [] => []
  | fuel+1, c :: rest =>
    if isJsWs c then ' ' :: collapseWs fuel (rest.dropWhile isJsWs)
    else c :: collapseWs fuel rest

def getJobDescriptionWithReadability (o : FetchOutcome) : String :=
  match o with
  | .failure => SENTINEL_JD
  | .success none => String.mk (clampText SENTINEL_JD.data LIMITS_jobSingleChars)
  | .success (some t) =>
    String.mk (clampText (jsTrim (collapseWs (t.data.length + 1) t.data))
      LIMITS_jobSingleChars)

/-- Lines 465–469: the aggregated posting text of `/api/analyze-cv-multiple`. -/
def combinedJD (jobDescriptions : List String) : String :=
  String.mk (clampText
    (if jobDescriptions.isEmpty
     then "Brak ogłoszeń lub nie udało się pobrać treści.".data
     else (String.intercalate "\n\n---\n\n" jobDescriptions).data)
    LIMITS_jobTotalChars)

/-! ## Spec-side variant of the trailing-comma pass

Spec §4.6 step 2 reads "remove trailing commas before a closing
brace/bracket".  The following pair of definitions follows those words —
lookahead class `}` or `]` — to be compared against the source's
`removeTrailingCommas`, whose literal class is `}` or a backtick. -/

def isCommaCloserSpec (c : Char) : Bool := c = '}' ∨ c = ']'

def removeTrailingCommasSpec : Nat → List Char → List Char
  | 0, cs => cs
  | _, [] => []
  | fuel+1, c :: rest =>
    if c = ',' then
      let rest1 := rest.dropWhile isJsWs
      match rest1 with
      | d :: _ =>
        if isCommaCloserSpec d then removeTrailingCommasSpec fuel rest1
        else ',' :: removeTrailingCommasSpec fuel rest
      | [] => ',' :: removeTrailingCommasSpec fuel rest
    else c :: removeTrailingCommasSpec fuel rest

/-- `cleanAndParse` with the spec's trailing-comma class instead of the
source's. -/
def cleanAndParseSpec (candidate : List Char) : Option JSValue :=
  let c1 := mapSmartQuotes candidate
  let c2 := removeTrailingCommasSpec (c1.length + 1) c1
  let c3 := stripLineComments (c2.length + 1) c2
  let c4 := stripBlockComments (c3.length + 1) c3
  jsonParse c4

/-! # Theorems -/

/-- C6: for every string `s` and cap `max` with `length s > max`,
`clampText s max` is exactly the first `max` characters of `s` followed by
the one-character marker `…` — so it has `max + 1` characters and ends with
the marker — while a string of length at most `max` is returned unchanged. -/
theorem clampText_clamps (s : List Char) (max : Nat) :
    (max < s.length →
      (clampText s max).length = max + 1 ∧
      clampText s max = s.take max ++ ['…'] ∧
      (clampText s max).getLast? = some '…') ∧
    (s.length ≤ max → clampText s max = s) := by
  constructor
  · intro h
    refine ⟨?_, ?_, ?_⟩
    · simp [clampText, h, Nat.min_eq_left (le_of_lt h)]
    · simp [clampText, h]
    · simp [clampText, h, List.getLast?_concat]
  · intro h
    simp [clampText, Nat.not_lt.mpr h]

/-- Witness for `clampText_clamps` at `s = "hello"`, `max = 3` (long case)
and `s = "ab"`, `max = 3` (short case). -/
theorem clampText_clamps_witness :
    (clampText "hello".data 3).length = 3 + 1 ∧ clampText "ab".data 3 = "ab".data :=
  ⟨((clampText_clamps "hello".data 3).1 (by decide)).1,
   (clampText_clamps "ab".data 3).2 (by decide)⟩

/-- C8: `jaccard` is symmetric; on a non-empty set against itself it is 1;
on two disjoint non-empty sets it is 0; and on two empty inputs it is 0
because the union size is floored at 1 instead of dividing by zero. -/
theorem jaccard_props :
    (∀ a b : List String, jaccard a b = jaccard b a) ∧
    (∀ a : List String, a ≠ [] → jaccard a a = 1) ∧
    (∀ a b : List String, a ≠ [] → b ≠ [] →
      a.toFinset ∩ b.toFinset = ∅ → jaccard a b = 0) ∧
    jaccard ([] : List String) [] = 0 := by
  refine ⟨?_, ?_, ?_, ?_⟩
  · intro a b
    simp only [jaccard]
    rw [Finset.inter_comm, Finset.union_comm]
  · intro a ha
    simp only [jaccard, Finset.inter_self, Finset.union_self]
    have h0 : a.toFinset ≠ ∅ := by simpa [List.toFinset_eq_empty_iff] using ha
    have hpos : 0 < a.toFinset.card :=
      Finset.card_pos.mpr (Finset.nonempty_iff_ne_empty.mpr h0)
    rw [max_eq_left hpos]
    exact div_self (by exact_mod_cast hpos.ne')
  · intro a b _ _ hd
    simp [jaccard, hd]
  · simp [jaccard]

/-- Witness for `jaccard_props`: a singleton against itself is 1, two
distinct singletons give 0. -/
theorem jaccard_props_witness :
    jaccard ["a"] ["a"] = 1 ∧ jaccard ["a"] ["b"] = 0 :=
  ⟨jaccard_props.2.1 ["a"] (by decide),
   jaccard_props.2.2.1 ["a"] ["b"] (by decide) (by decide) (by decide)⟩

/-- Every table entry named `Inne` has an empty keyword list. -/
theorem inne_has_no_keywords :
    ∀ e ∈ INDUSTRY_KEYWORDS, e.1 = "Inne" → e.2 = [] := by decide

/-- A successful `matchEntry` returns the name of a table entry one of
whose keywords occurs in the page — and that name is never `Inne`. -/
theorem matchEntry_spec {p name : String} (h : matchEntry p = some name) :
    name ≠ "Inne" ∧ ∃ e ∈ INDUSTRY_KEYWORDS, name = e.1 ∧
      ∃ kw ∈ e.2, hasSub kw.data p.data = true := by
  unfold matchEntry at h
  obtain ⟨e, hf, hn⟩ : ∃ e, (INDUSTRY_KEYWORDS.find? fun e =>
      e.2.any fun kw => hasSub kw.data p.data) = some e ∧ e.1 = name := by
    cases hf : (INDUSTRY_KEYWORDS.find? fun e =>
        e.2.any fun kw => hasSub kw.data p.data) with
    | none => rw [hf] at h; simp at h
    | some e => exact ⟨e, rfl, by rw [hf] at h; simpa using h⟩
  have hmem := List.mem_of_find?_eq_some hf
  have hpred := List.find?_some hf
  obtain ⟨kw, hkw, hs⟩ := List.any_eq_true.mp hpred
  subst hn
  refine ⟨?_, e, hmem, rfl, kw, hkw, hs⟩
  intro hinne
  have : e.2 = [] := inne_has_no_keywords e hmem hinne
  rw [this] at hkw
  exact absurd hkw (List.not_mem_nil kw)

/-- C10: the detected industry is never `Inne`: for every list of fetched
(lower-cased) page bodies the result is either the empty string or the
name of a keyword-table entry one of whose keywords is a substring of some
page — and the `Inne` entry, having no keywords, can never match. -/
theorem detectIndustry_never_inne (pages : List String) :
    detectIndustry pages ≠ "Inne" ∧
    (detectIndustry pages = "" ∨
      ∃ e ∈ INDUSTRY_KEYWORDS, detectIndustry pages = e.1 ∧
        ∃ kw ∈ e.2, ∃ p ∈ pages, hasSub kw.data p.data = true) := by
  induction pages with
  | nil => simp [detectIndustry]
  | cons p rest ih =>
    by_cases hp : p = ""
    · rw [show detectIndustry (p :: rest) = detectIndustry rest by
        simp [detectIndustry, hp]]
      refine ⟨ih.1, ?_⟩
      rcases ih.2 with h | ⟨e, he, hd, kw, hkw, q, hq, hs⟩
      · exact Or.inl h
      · exact Or.inr ⟨e, he, hd, kw, hkw, q, List.mem_cons_of_mem _ hq, hs⟩
    · cases hm : matchEntry p with
      | none =>
        rw [show detectIndustry (p :: rest) = detectIndustry rest by
          simp [detectIndustry, hp, hm]]
        refine ⟨ih.1, ?_⟩
        rcases ih.2 with h | ⟨e, he, hd, kw, hkw, q, hq, hs⟩
        · exact Or.inl h
        · exact Or.inr ⟨e, he, hd, kw, hkw, q, List.mem_cons_of_mem _ hq, hs⟩
      | some name =>
        rw [show detectIndustry (p :: rest) = name by
          simp [detectIndustry, hp, hm]]
        obtain ⟨hne, e, he, hn, kw, hkw, hs⟩ := matchEntry_spec hm
        exact ⟨hne, Or.inr ⟨e, he, hn, kw, hkw, p, List.mem_cons_self _ _, hs⟩⟩

theorem toArr_eq (v : JSValue) : toArr v = .arr (arrOf v) := by
  cases v <;> rfl

/-- Helper: on any non-`null` input, `ensureAnalysisShape` succeeds and
returns the full five-field shape, with the summary defaulting by
truthiness and every list field an array. -/
theorem ensureShape_ok (a : JSValue) (h : a ≠ JSValue.null) :
    ∃ p0, getProp (defaultedParam a) "podsumowanie" = .ok p0 ∧
      ensureAnalysisShape a = .ok (.obj [
        ("podsumowanie", if truthy p0 then p0 else .str ""),
        ("dopasowanie", .obj [
          ("mocne_strony", .arr (arrOf (optChain (optChain (defaultedParam a) "dopasowanie") "mocne_strony"))),
          ("obszary_do_poprawy", .arr (arrOf (optChain (optChain (defaultedParam a) "dopasowanie") "obszary_do_poprawy")))]),
        ("pytania", .obj [
          ("kompetencje_miekkie", .arr (arrOf (optChain (optChain (defaultedParam a) "pytania") "kompetencje_miekkie"))),
          ("kompetencje_twarde", .arr (arrOf (optChain (optChain (defaultedParam a) "pytania") "kompetencje_twarde")))])]) := by
  cases a with
  | null => exact absurd rfl h
  | undefined => exact ⟨.undefined, rfl, rfl⟩
  | bool b => exact ⟨.undefined, rfl, rfl⟩
  | num q => exact ⟨.undefined, rfl, rfl⟩
  | str s => exact ⟨.undefined, rfl, rfl⟩
  | arr xs => exact ⟨.undefined, rfl, rfl⟩
  | obj fs =>
    refine ⟨lookupField fs "podsumowanie", rfl, ?_⟩
    simp [ensureAnalysisShape, defaultedParam, getProp, toArr_eq]

/-- C2 counterexample: the normalizer is not total — it throws on `null`
(the default parameter replaces only `undefined`) — and a truthy
wrong-typed `podsumowanie` (here the number 42) is passed through rather
than replaced by an empty string. -/
theorem ensureAnalysisShape_cex :
    ensureAnalysisShape JSValue.null = .error () ∧
    ensureAnalysisShape (.obj [("podsumowanie", .num 42)]) = .ok (.obj [
      ("podsumowanie", .num 42),
      ("dopasowanie", .obj [("mocne_strony", .arr []), ("obszary_do_poprawy", .arr [])]),
      ("pytania", .obj [("kompetencje_miekkie", .arr []), ("kompetencje_twarde", .arr [])])]) ∧
    (∀ s : String, JSValue.num 42 ≠ JSValue.str s) := by
  refine ⟨rfl, rfl, ?_⟩
  intro s hcontra
  exact JSValue.noConfusion hcontra

/-- C2 (amended): for every input other than `null` (with `undefined`
defaulted to `{}`), `ensureAnalysisShape` returns without failing an
object in which all five expected fields are present, every list field
that is missing or not an array is the empty array, and `podsumowanie` is
the empty string whenever the incoming value is falsy — a truthy
non-string value is kept as-is. -/
theorem ensureAnalysisShape_amended (a : JSValue) (h : a ≠ JSValue.null) :
    ∃ p0, getProp (defaultedParam a) "podsumowanie" = .ok p0 ∧
      ensureAnalysisShape a = .ok (.obj [
        ("podsumowanie", if truthy p0 then p0 else .str ""),
        ("dopasowanie", .obj [
          ("mocne_strony", .arr (arrOf (optChain (optChain (defaultedParam a) "dopasowanie") "mocne_strony"))),
          ("obszary_do_poprawy", .arr (arrOf (optChain (optChain (defaultedParam a) "dopasowanie") "obszary_do_poprawy")))]),
        ("pytania", .obj [
          ("kompetencje_miekkie", .arr (arrOf (optChain (optChain (defaultedParam a) "pytania") "kompetencje_miekkie"))),
          ("kompetencje_twarde", .arr (arrOf (optChain (optChain (defaultedParam a) "pytania") "kompetencje_twarde")))])]) :=
  ensureShape_ok a h

/-- Witness for `ensureAnalysisShape_amended` at the partially-shaped
input `{ pytania: 7 }`. -/
theorem ensureAnalysisShape_amended_witness :
    ∃ p0, getProp (defaultedParam (.obj [("pytania", .num 7)])) "podsumowanie" = .ok p0 ∧
      ensureAnalysisShape (.obj [("pytania", .num 7)]) = .ok (.obj [
        ("podsumowanie", if truthy p0 then p0 else .str ""),
        ("dopasowanie", .obj [
          ("mocne_strony", .arr (arrOf (optChain (optChain (defaultedParam (.obj [("pytania", .num 7)])) "dopasowanie") "mocne_strony"))),
          ("obszary_do_poprawy", .arr (arrOf (optChain (optChain (defaultedParam (.obj [("pytania", .num 7)])) "dopasowanie") "obszary_do_poprawy")))]),
        ("pytania", .obj [
          ("kompetencje_miekkie", .arr (arrOf (optChain (optChain (defaultedParam (.obj [("pytania", .num 7)])) "pytania") "kompetencje_miekkie"))),
          ("kompetencje_twarde", .arr (arrOf (optChain (optChain (defaultedParam (.obj [("pytania", .num 7)])) "pytania") "kompetencje_twarde")))])]) :=
  ensureAnalysisShape_amended (.obj [("pytania", .num 7)]) (fun hc => JSValue.noConfusion hc)

theorem dropWhile_head_false (p : Char → Bool) :
    ∀ (l : List Char) (c : Char) (t : List Char), l.dropWhile p = c :: t → p c = false := by
  intro l
  induction l with
  | nil => intro c t h; simp at h
  | cons a l ih =>
    intro c t h
    by_cases hp : p a
    · rw [List.dropWhile_cons_of_pos hp] at h; exact ih c t h
    · rw [List.dropWhile_cons_of_neg hp] at h
      cases h
      simpa using hp

theorem jsTrim_eq_self {l : List Char}
    (hh : ∀ c t, l = c :: t → isJsWs c = false)
    (hl : ∀ (h : l ≠ []), isJsWs (l.getLast h) = false) : jsTrim l = l := by
  have h1 : l.dropWhile isJsWs = l := by
    cases l with
    | nil => rfl
    | cons c t => rw [List.dropWhile_cons_of_neg (by simp [hh c t rfl])]
  unfold jsTrim
  rw [h1, List.rdropWhile_eq_self_iff.mpr]
  intro hne
  simpa using hl hne

theorem jsTrim_head_false (w : List Char) (c : Char) (t : List Char)
    (h : jsTrim w = c :: t) : isJsWs c = false := by
  have hpre : jsTrim w <+: w.dropWhile isJsWs := List.rdropWhile_prefix _ _
  obtain ⟨tail, htail⟩ := hpre
  rw [h, List.cons_append] at htail
  exact dropWhile_head_false _ w c (t ++ tail) htail.symm

theorem jsTrim_last_false (w : List Char) (h : jsTrim w ≠ []) :
    isJsWs ((jsTrim w).getLast h) = false := by
  have := List.rdropWhile_last_not isJsWs (w.dropWhile isJsWs) h
  simpa using this

theorem jsTrim_idem (l : List Char) : jsTrim (jsTrim l) = jsTrim l :=
  jsTrim_eq_self (fun c t h => jsTrim_head_false l c t h) (fun h => jsTrim_last_false l h)

theorem clampText_trim_stable (w : List Char) (n : Nat) :
    jsTrim (clampText (jsTrim w) n) = clampText (jsTrim w) n := by
  by_cases h : n < (jsTrim w).length
  · have hcl : clampText (jsTrim w) n = (jsTrim w).take n ++ ['…'] := by
      simp [clampText, h]
    rw [hcl]
    apply jsTrim_eq_self
    · intro c t hct
      cases hn : (jsTrim w).take n with
      | nil =>
        rw [hn] at hct
        simp at hct
        rw [← hct.1]
        decide
      | cons d ds =>
        rw [hn] at hct
        have hd : c = d := by simpa using congrArg (fun l => l.headD ' ') hct.symm
        subst hd
        obtain ⟨u, hu⟩ : ∃ u, jsTrim w = c :: u := by
          cases hw : jsTrim w with
          | nil => rw [hw] at hn; simp at hn
          | cons e es =>
            rw [hw] at hn
            cases n with
            | zero => simp at hn
            | succ m =>
              rw [List.take_succ_cons] at hn
              injection hn with h1 _
              exact ⟨es, by rw [h1]⟩
        exact jsTrim_head_false w c u hu
    · intro hne
      have h2 : ((jsTrim w).take n ++ ['…']).getLast? = some '…' := by
        simp [List.getLast?_concat]
      rw [List.getLast?_eq_getLast _ hne] at h2
      have : ((jsTrim w).take n ++ ['…']).getLast hne = '…' := by
        injection h2
      rw [this]
      decide
  · have hcl : clampText (jsTrim w) n = jsTrim w := by simp [clampText, h]
    rw [hcl]
    exact jsTrim_idem w

theorem clampText_idem (s : List Char) (n : Nat) :
    clampText (clampText s n) n = clampText s n := by
  by_cases h : n < s.length
  · have h1 : clampText s n = s.take n ++ ['…'] := by simp [clampText, h]
    have hlen : (s.take n).length = n := by simp [Nat.min_eq_left (le_of_lt h)]
    have h2 : n < (s.take n ++ ['…']).length := by simp [hlen]
    rw [h1]
    simp only [clampText, if_pos h2]
    congr 1
    calc (s.take n ++ ['…']).take n
        = (s.take n ++ ['…']).take (s.take n).length := by rw [hlen]
      _ = s.take n := List.take_left _ _
  · have h1 : clampText s n = s := by simp [clampText, Nat.not_lt.mp h]
    rw [h1]
    exact h1

theorem sanitizeItem_str (y : List Char) (hy : y ≠ []) (n : Nat) :
    sanitizeItem (.str (String.mk y)) n = clampText (jsTrim y) n := by
  have ht : truthy (.str (String.mk y)) = true := by
    simp only [truthy, decide_eq_true_eq]
    intro hc
    exact hy (congrArg String.data hc)
  simp [sanitizeItem, ht, jsToString]

theorem sanitize_idem (v : JSValue) (n : Nat) :
    sanitizeStringArray (.arr ((sanitizeStringArray v n).map fun s => .str (String.mk s))) n
      = sanitizeStringArray v n := by
  have key : ∀ y ∈ sanitizeStringArray v n, sanitizeItem (.str (String.mk y)) n = y := by
    intro y hy
    have hform : ∃ x, sanitizeItem x n = y := by
      cases v with
      | arr xs =>
        obtain ⟨x, _, hfx⟩ := List.mem_map.mp (List.mem_filter.mp hy).1
        exact ⟨x, hfx⟩
      | undefined => simp [sanitizeStringArray] at hy
      | null => simp [sanitizeStringArray] at hy
      | bool b => simp [sanitizeStringArray] at hy
      | num q => simp [sanitizeStringArray] at hy
      | str s => simp [sanitizeStringArray] at hy
      | obj fs => simp [sanitizeStringArray] at hy
    have hne : y ≠ [] := by
      cases v with
      | arr xs =>
        have := (List.mem_filter.mp hy).2
        simpa [List.isEmpty_iff] using this
      | undefined => simp [sanitizeStringArray] at hy
      | null => simp [sanitizeStringArray] at hy
      | bool b => simp [sanitizeStringArray] at hy
      | num q => simp [sanitizeStringArray] at hy
      | str s => simp [sanitizeStringArray] at hy
      | obj fs => simp [sanitizeStringArray] at hy
    obtain ⟨x, hfx⟩ := hform
    rw [sanitizeItem_str y hne n, ← hfx]
    show clampText (jsTrim (sanitizeItem x n)) n = sanitizeItem x n
    unfold sanitizeItem
    rw [clampText_trim_stable, clampText_idem]
  show ((((sanitizeStringArray v n).map fun s => JSValue.str (String.mk s)).map
      fun x => sanitizeItem x n).filter fun s => !s.isEmpty) = sanitizeStringArray v n
  rw [List.map_map]
  have hmap : ((sanitizeStringArray v n).map
      ((fun x => sanitizeItem x n) ∘ fun s => JSValue.str (String.mk s)))
      = sanitizeStringArray v n := by
    have h2 : ∀ y ∈ sanitizeStringArray v n,
        ((fun x => sanitizeItem x n) ∘ fun s => JSValue.str (String.mk s)) y = id y := by
      intro y hy
      simpa using key y hy
    rw [List.map_congr_left h2, List.map_id]
  rw [hmap]
  refine List.filter_eq_self.mpr ?_
  intro y hy
  cases v with
  | arr xs => exact (List.mem_filter.mp hy).2
  | undefined => simp [sanitizeStringArray] at hy
  | null => simp [sanitizeStringArray] at hy
  | bool b => simp [sanitizeStringArray] at hy
  | num q => simp [sanitizeStringArray] at hy
  | str s => simp [sanitizeStringArray] at hy
  | obj fs => simp [sanitizeStringArray] at hy

/-- Helper: `ensureAnalysisShape` is the identity (wrapped in `.ok`) on any
value already in normalized shape whose summary is a fixed point of the
truthiness default. -/
theorem ensure_of_shaped (P : JSValue) (hP : (if truthy P then P else JSValue.str "") = P)
    (A1 A2 A3 A4 : List JSValue) :
    ensureAnalysisShape (.obj [("podsumowanie", P),
      ("dopasowanie", .obj [("mocne_strony", .arr A1), ("obszary_do_poprawy", .arr A2)]),
      ("pytania", .obj [("kompetencje_miekkie", .arr A3), ("kompetencje_twarde", .arr A4)])])
    = .ok (.obj [("podsumowanie", P),
      ("dopasowanie", .obj [("mocne_strony", .arr A1), ("obszary_do_poprawy", .arr A2)]),
      ("pytania", .obj [("kompetencje_miekkie", .arr A3), ("kompetencje_twarde", .arr A4)])]) := by
  conv_lhs => rw [show ensureAnalysisShape (.obj [("podsumowanie", P),
      ("dopasowanie", .obj [("mocne_strony", .arr A1), ("obszary_do_poprawy", .arr A2)]),
      ("pytania", .obj [("kompetencje_miekkie", .arr A3), ("kompetencje_twarde", .arr A4)])])
    = .ok (.obj [("podsumowanie", if truthy P then P else JSValue.str ""),
      ("dopasowanie", .obj [("mocne_strony", .arr A1), ("obszary_do_poprawy", .arr A2)]),
      ("pytania", .obj [("kompetencje_miekkie", .arr A3), ("kompetencje_twarde", .arr A4)])])
    from rfl]
  rw [hP]

/-- C7: normalization is idempotent — re-running `ensureAnalysisShape` on
any of its own outputs returns that output unchanged, re-sanitizing an
already-sanitized string array (fed back as a JS array of strings) is the
identity, and `clampText` is idempotent at a fixed cap. -/
theorem normalization_idempotent :
    (∀ a v, ensureAnalysisShape a = .ok v → ensureAnalysisShape v = .ok v) ∧
    (∀ (v : JSValue) (n : Nat),
      sanitizeStringArray (.arr ((sanitizeStringArray v n).map fun s => .str (String.mk s))) n
        = sanitizeStringArray v n) ∧
    (∀ (s : List Char) (n : Nat), clampText (clampText s n) n = clampText s n) := by
  refine ⟨?_, sanitize_idem, clampText_idem⟩
  intro a v h
  have hnull : a ≠ JSValue.null := by
    rintro rfl
    exact Except.noConfusion h
  obtain ⟨p0, hp0, hshape⟩ := ensureShape_ok a hnull
  rw [h] at hshape
  have hv := Except.ok.inj hshape
  subst hv
  refine ensure_of_shaped _ ?_ _ _ _ _
  cases htr : truthy p0 with
  | false => simp [htr]
  | true => simp [htr]

/-- Witness for `normalization_idempotent`: the concrete normalized value
obtained from `{ podsumowanie: "x" }` is a fixed point, and a concrete
sanitized array and clamped string are fixed points. -/
theorem normalization_idempotent_witness :
    ensureAnalysisShape (.obj [
      ("podsumowanie", .str "x"),
      ("dopasowanie", .obj [("mocne_strony", .arr []), ("obszary_do_poprawy", .arr [])]),
      ("pytania", .obj [("kompetencje_miekkie", .arr []), ("kompetencje_twarde", .arr [])])])
    = .ok (.obj [
      ("podsumowanie", .str "x"),
      ("dopasowanie", .obj [("mocne_strony", .arr []), ("obszary_do_poprawy", .arr [])]),
      ("pytania", .obj [("kompetencje_miekkie", .arr []), ("kompetencje_twarde", .arr [])])]) ∧
    sanitizeStringArray (.arr ((sanitizeStringArray (.arr [.str " hi ", .str ""]) 2).map
      fun s => .str (String.mk s))) 2 = sanitizeStringArray (.arr [.str " hi ", .str ""]) 2 :=
  ⟨normalization_idempotent.1 (.obj [("podsumowanie", .str "x")]) _ rfl,
   normalization_idempotent.2.1 (.arr [.str " hi ", .str ""]) 2⟩

/-- Helper: sanitizing a JS array of nonblank, already-trimmed,
under-cap strings is just the list of their character data. -/
theorem sanitize_of_clean (ss : List String) (n : Nat)
    (h : ∀ s ∈ ss, s.data ≠ [] ∧ jsTrim s.data = s.data ∧ s.data.length ≤ n) :
    sanitizeStringArray (.arr (ss.map fun s => .str s)) n = ss.map String.data := by
  show ((ss.map fun s => JSValue.str s).map (fun x => sanitizeItem x n)).filter
      (fun s => !s.isEmpty) = ss.map String.data
  rw [List.map_map]
  have hcong : ∀ s ∈ ss,
      ((fun x => sanitizeItem x n) ∘ fun s => JSValue.str s) s = String.data s := by
    intro s hs
    obtain ⟨h1, h2, h3⟩ := h s hs
    have ht : truthy (.str s) = true := by
      simp only [truthy, decide_eq_true_eq]
      intro hc
      exact h1 (congrArg String.data hc)
    show sanitizeItem (.str s) n = s.data
    unfold sanitizeItem
    rw [ht]
    show clampText (jsTrim s.data) n = s.data
    rw [h2]
    unfold clampText
    rw [if_neg (Nat.not_lt.mpr h3)]
  rw [List.map_congr_left hcong]
  refine List.filter_eq_self.mpr ?_
  intro y hy
  obtain ⟨s, hs, rfl⟩ := List.mem_map.mp hy
  simp [List.isEmpty_iff, (h s hs).1]

/-- C3 (amended): on `POST /api/generate-questions` with plan `free` the
counts are (2, 2) and the normalized soft-skill list is the sanitized
reply list truncated to the first `numSoft` entries — for a reply of five
nonblank trimmed under-cap string items, exactly the first two in their
original order.  Items are sanitized (trimmed, clamped, blanks dropped)
before the cut, and `POST /api/analyze-cv-multiple` does not truncate the
question lists to the plan counts at all (see the counterexample). -/
theorem genQuestions_free_firstTwo :
    numSoftFor "free" = 2 ∧ numHardFor "free" = 2 ∧
    (∀ (llmRaw : List Char) (out : JSValue) (nS nH : Nat),
      extractAndParseJSON llmRaw = .ok out →
      genQuestions llmRaw nS nH = genQuestionsFromOut out nS nH) ∧
    (∀ (ss : List String) (hard : List JSValue) (nS nH : Nat),
      (∀ s ∈ ss, s.data ≠ [] ∧ jsTrim s.data = s.data ∧ s.data.length ≤ LIMITS_itemChars) →
      genQuestionsFromOut (.obj [("pytania", .obj [
        ("kompetencje_miekkie", .arr (ss.map fun s => .str s)),
        ("kompetencje_twarde", .arr hard)])]) nS nH
      = .ok ((ss.map String.data).take nS,
             (sanitizeStringArray (.arr hard) LIMITS_itemChars).take nH)) ∧
    (∀ s1 s2 s3 s4 s5 : String,
      ([s1, s2, s3, s4, s5].map String.data).take 2 = [s1.data, s2.data]) := by
  refine ⟨rfl, rfl, ?_, ?_, fun _ _ _ _ _ => rfl⟩
  · intro llmRaw out nS nH h
    unfold genQuestions
    rw [h]
  · intro ss hard nS nH h
    have h1 : genQuestionsFromOut (.obj [("pytania", .obj [
        ("kompetencje_miekkie", .arr (ss.map fun s => .str s)),
        ("kompetencje_twarde", .arr hard)])]) nS nH
      = .ok ((sanitizeStringArray (.arr (ss.map fun s => .str s)) LIMITS_itemChars).take nS,
             (sanitizeStringArray (.arr hard) LIMITS_itemChars).take nH) := rfl
    rw [h1, sanitize_of_clean ss LIMITS_itemChars h]

/-- Witness for `genQuestions_free_firstTwo`: a five-item reply through the
generate-questions normalization at the free-plan counts. -/
theorem genQuestions_free_firstTwo_witness :
    genQuestionsFromOut (.obj [("pytania", .obj [
      ("kompetencje_miekkie", .arr (["q1", "q2", "q3", "q4", "q5"].map fun s => .str s)),
      ("kompetencje_twarde", .arr [])])]) 2 2
    = .ok (((["q1", "q2", "q3", "q4", "q5"] : List String).map String.data).take 2,
           (sanitizeStringArray (.arr []) LIMITS_itemChars).take 2) :=
  genQuestions_free_firstTwo.2.2.2.1 ["q1", "q2", "q3", "q4", "q5"] [] 2 2 (by decide)

/-- C3 counterexample: on `POST /api/analyze-cv-multiple` (an analysis
request; the plan only affects the prompt there) a reply that parses to
five soft-skill items is normalized to a result that still contains all
five, not exactly two. -/
theorem analyze_keeps_five_questions :
    listLen (optChain (optChain (analyzeAnalysis
      "\x7b\"pytania\":\x7b\"kompetencje_miekkie\":[\"q1\",\"q2\",\"q3\",\"q4\",\"q5\"],\"kompetencje_twarde\":[]\x7d\x7d".data
      50) "pytania") "kompetencje_miekkie") = 5 ∧ (5 : Nat) ≠ 2 :=
  ⟨rfl, by decide⟩

/-- Helper: `Math.round((m/t)*100)` over the idealised doubles equals the
integer `(200·m + t) / (2·t)` in natural division. -/
theorem jsRound_of_div (m t : Nat) (ht : 0 < t) :
    jsMathRound ((m : ℚ) / (t : ℚ) * 100) = (((200 * m + t) / (2 * t) : ℕ) : ℤ) := by
  unfold jsMathRound
  have ht' : (t : ℚ) ≠ 0 := Nat.cast_ne_zero.mpr ht.ne'
  have h1 : (m : ℚ) / (t : ℚ) * 100 + 1/2
      = (((200 * m + t : ℕ) : ℤ) : ℚ) / ((2 * t : ℕ) : ℚ) := by
    push_cast
    field_simp
    ring
  rw [h1, Rat.floor_intCast_div_natCast]
  norm_cast

/-- Helper: the degraded placeholder is a four-field shape with empty
strength/gap/question lists. -/
theorem degraded_eq (raw : List Char) :
    degradedAnalysis raw = .obj [
      ("podsumowanie", .str "Nie udało się poprawnie sparsować odpowiedzi modelu. Surowa odpowiedź (skrót) w polu rawResponse."),
      ("dopasowanie", .obj [("mocne_strony", .arr []), ("obszary_do_poprawy", .arr [])]),
      ("pytania", .obj [("kompetencje_miekkie", .arr []), ("kompetencje_twarde", .arr [])]),
      ("rawResponse", .str (String.mk (raw.take 2000)))] := rfl

/-- C4: the final `dopasowanie_procentowe` is computed deterministically
from the lengths of the normalized strength/gap lists and the keyword
overlap only — never from a model-reported score: it is
`round(100·m/(m+o))` (0 when both lists are empty), capped at 35 when the
overlap is below 10 and at 50 when below 20; for 2 strengths and 1 gap
with no cap triggered it is 67. -/
theorem matchPercentage_deterministic :
    (∀ (llmRaw : List Char) (kw : Nat),
      optChain (analyzeAnalysis llmRaw kw) "dopasowanie_procentowe"
        = .num ((matchPct
            (listLen (optChain (optChain (analyzeAnalysis llmRaw kw) "dopasowanie") "mocne_strony"))
            (listLen (optChain (optChain (analyzeAnalysis llmRaw kw) "dopasowanie") "obszary_do_poprawy"))
            kw : ℤ) : ℚ)) ∧
    (∀ m t : Nat, 0 < t →
      jsMathRound ((m : ℚ) / (t : ℚ) * 100) = round ((100 * m : ℚ) / (t : ℚ))) ∧
    (∀ m o kw : Nat, 0 < m + o →
      matchPct m o kw =
        (if kw < 10 then min (((200 * m + (m + o)) / (2 * (m + o)) : ℕ) : ℤ) 35
         else if kw < 20 then min (((200 * m + (m + o)) / (2 * (m + o)) : ℕ) : ℤ) 50
         else (((200 * m + (m + o)) / (2 * (m + o)) : ℕ) : ℤ))) ∧
    (∀ kw : Nat, matchPct 0 0 kw = 0) ∧
    (∀ kw : Nat, 20 ≤ kw → matchPct 2 1 kw = 67) ∧
    (∀ m o kw : Nat, kw < 10 → matchPct m o kw ≤ 35) ∧
    (∀ m o kw : Nat, 10 ≤ kw → kw < 20 → matchPct m o kw ≤ 50) := by
  refine ⟨?_, ?_, ?_, ?_, ?_, ?_, ?_⟩
  · intro llmRaw kw
    cases hex : extractAndParseJSON llmRaw with
    | error e =>
      simp only [analyzeAnalysis, hex]
      rfl
    | ok parsed =>
      cases hsh : ensureAnalysisShape parsed with
      | error e =>
        simp only [analyzeAnalysis, hex, hsh]
        rfl
      | ok A =>
        have hnull : parsed ≠ JSValue.null := by
          rintro rfl
          exact Except.noConfusion hsh
        obtain ⟨p0, _, hshape⟩ := ensureShape_ok parsed hnull
        rw [hsh] at hshape
        have hA := Except.ok.inj hshape
        subst hA
        simp only [analyzeAnalysis, hex, hsh]
        rfl
  · intro m t ht
    unfold jsMathRound
    rw [round_eq]
    congr 1
    ring
  · intro m o kw h
    simp only [matchPct]
    rw [if_pos h, jsRound_of_div m (m + o) h]
  · intro kw
    simp only [matchPct]
    norm_num
  · intro kw hkw
    simp only [matchPct]
    rw [if_neg (by omega : ¬ kw < 10), if_neg (by omega : ¬ kw < 20),
      if_pos (by norm_num : 0 < 2 + 1), jsRound_of_div 2 (2 + 1) (by norm_num)]
    norm_num
  · intro m o kw h
    simp only [matchPct]
    rw [if_pos h]
    exact min_le_right _ _
  · intro m o kw h1 h2
    simp only [matchPct]
    rw [if_neg (by omega : ¬ kw < 10), if_pos h2]
    exact min_le_right _ _

/-- Witness for `matchPercentage_deterministic` on the spec's scenario
reply (fenced JSON with 2 strengths and 1 gap) at overlap 50: the stored
percentage is 67. -/
theorem matchPercentage_deterministic_witness :
    optChain (analyzeAnalysis
      "```json\n\x7b\"podsumowanie\":\"ok\",\"dopasowanie\":\x7b\"mocne_strony\":[\"a\",\"b\"],\"obszary_do_poprawy\":[\"c\"]\x7d\x7d\n```".data
      50) "dopasowanie_procentowe" = .num ((67 : ℤ) : ℚ) ∧
    matchPct 2 1 50 = 67 := by
  have h67 : matchPct 2 1 50 = 67 :=
    matchPercentage_deterministic.2.2.2.2.1 50 (by norm_num)
  refine ⟨?_, h67⟩
  have h1 := matchPercentage_deterministic.1
    "```json\n\x7b\"podsumowanie\":\"ok\",\"dopasowanie\":\x7b\"mocne_strony\":[\"a\",\"b\"],\"obszary_do_poprawy\":[\"c\"]\x7d\x7d\n```".data
    50
  exact h1.trans (congrArg (fun z : ℤ => JSValue.num (z : ℚ)) h67)

/-- Helper: `extractAndParseJSON` on a nonempty reply is the four-stage
fallback chain over the preprocessed text. -/
theorem extract_eq (r : List Char) (hr : r ≠ []) :
    extractAndParseJSON r =
      match cleanAndParse (preprocessReply r) with
      | some v => .ok v
      | none =>
        match (match findBalancedJSON (preprocessReply r) with
               | some cand => cleanAndParse cand
               | none => none) with
        | some v => .ok v
        | none =>
          match (boundarySlice (preprocessReply r) '{' '}').bind cleanAndParse with
          | some v => .ok v
          | none =>
            match (boundarySlice (preprocessReply r) '[' ']').bind cleanAndParse with
            | some v => .ok v
            | none => .error .unparsable := by
  unfold extractAndParseJSON
  rw [if_neg (by simpa [List.isEmpty_iff] using hr)]

/-- Helper: if the whole chain ended in the unparsable error, neither
boundary slice parses. -/
theorem boundary_err (t : List Char)
    (he : (match (boundarySlice t '{' '}').bind cleanAndParse with
           | some v => (Except.ok v : Except JErr JSValue)
           | none =>
             match (boundarySlice t '[' ']').bind cleanAndParse with
             | some v => .ok v
             | none => .error .unparsable) = .error .unparsable) :
    (∀ c, boundarySlice t '{' '}' = some c → cleanAndParse c = none) ∧
    (∀ c, boundarySlice t '[' ']' = some c → cleanAndParse c = none) := by
  constructor
  · intro c hc
    rw [hc] at he
    dsimp only [Option.bind] at he
    cases hC : cleanAndParse c with
    | some w => rw [hC] at he; dsimp only at he; simp at he
    | none => rfl
  · intro c hc
    cases hD : (boundarySlice t '{' '}').bind cleanAndParse with
    | some w => rw [hD] at he; dsimp only at he; simp at he
    | none =>
      rw [hD, hc] at he
      dsimp only [Option.bind] at he
      cases hC : cleanAndParse c with
      | some w => rw [hC] at he; dsimp only at he; simp at he
      | none => rfl

set_option maxHeartbeats 1000000 in
/-- C1 (amended): for every nonempty raw reply the recovery function either
returns a parsed value or raises the unparsable-reply error; it succeeds
whenever the string-aware balanced span of the preprocessed text cleans to
valid JSON; and it raises the error only when none of the four candidates —
the preprocessed text itself, the balanced span, and the two naive
first/last boundary slices — parses after cleaning.  (A balanced span alone
is not sufficient for success; see the counterexample.) -/
theorem extract_recovery_spec :
    (∀ r : List Char, r ≠ [] →
      (∃ v, extractAndParseJSON r = .ok v) ∨
        extractAndParseJSON r = .error .unparsable) ∧
    (∀ (r c : List Char) (v : JSValue),
      findBalancedJSON (preprocessReply r) = some c → cleanAndParse c = some v →
      ∃ w, extractAndParseJSON r = .ok w) ∧
    (∀ r : List Char, extractAndParseJSON r = .error .unparsable →
      cleanAndParse (preprocessReply r) = none ∧
      (∀ c, findBalancedJSON (preprocessReply r) = some c → cleanAndParse c = none) ∧
      (∀ c, boundarySlice (preprocessReply r) '{' '}' = some c → cleanAndParse c = none) ∧
      (∀ c, boundarySlice (preprocessReply r) '[' ']' = some c → cleanAndParse c = none)) := by
  refine ⟨?_, ?_, ?_⟩
  · intro r hr
    rw [extract_eq r hr]
    cases hA : cleanAndParse (preprocessReply r) with
    | some v => exact Or.inl ⟨v, rfl⟩
    | none =>
      dsimp only
      cases hB : findBalancedJSON (preprocessReply r) with
      | some cand =>
        dsimp only
        cases hC : cleanAndParse cand with
        | some v => exact Or.inl ⟨v, rfl⟩
        | none =>
          dsimp only
          cases hD : (boundarySlice (preprocessReply r) '{' '}').bind cleanAndParse with
          | some v => exact Or.inl ⟨v, rfl⟩
          | none =>
            dsimp only
            cases hE : (boundarySlice (preprocessReply r) '[' ']').bind cleanAndParse with
            | some v => exact Or.inl ⟨v, rfl⟩
            | none => exact Or.inr rfl
      | none =>
        dsimp only
        cases hD : (boundarySlice (preprocessReply r) '{' '}').bind cleanAndParse with
        | some v => exact Or.inl ⟨v, rfl⟩
        | none =>
          dsimp only
          cases hE : (boundarySlice (preprocessReply r) '[' ']').bind cleanAndParse with
          | some v => exact Or.inl ⟨v, rfl⟩
          | none => exact Or.inr rfl
  · intro r c v hb hc
    have hr : r ≠ [] := by
      rintro rfl
      rw [show preprocessReply [] = [] from rfl] at hb
      exact Option.noConfusion hb
    rw [extract_eq r hr]
    cases hA : cleanAndParse (preprocessReply r) with
    | some w => exact ⟨w, rfl⟩
    | none =>
      dsimp only
      rw [hb]
      dsimp only
      rw [hc]
      exact ⟨v, rfl⟩
  · intro r he
    have hr : r ≠ [] := by
      rintro rfl
      have he' : (Except.error JErr.emptyReply : Except JErr JSValue)
          = .error .unparsable := he
      exact JErr.noConfusion (Except.error.inj he')
    rw [extract_eq r hr] at he
    cases hA : cleanAndParse (preprocessReply r) with
    | some w => rw [hA] at he; dsimp only at he; simp at he
    | none =>
      rw [hA] at he
      dsimp only at he
      cases hB : findBalancedJSON (preprocessReply r) with
      | some cand =>
        rw [hB] at he
        dsimp only at he
        cases hC : cleanAndParse cand with
        | some w => rw [hC] at he; dsimp only at he; simp at he
        | none =>
          rw [hC] at he
          dsimp only at he
          obtain ⟨hObj, hArr⟩ := boundary_err _ he
          refine ⟨rfl, ?_, hObj, hArr⟩
          intro c hc
          injection hc with h
          rw [← h]
          exact hC
      | none =>
        rw [hB] at he
        dsimp only at he
        obtain ⟨hObj, hArr⟩ := boundary_err _ he
        refine ⟨rfl, ?_, hObj, hArr⟩
        intro c hc
        exact Option.noConfusion hc

/-- Witness for `extract_recovery_spec`: recovery succeeds on prose-wrapped
JSON via the balanced span; the ok-or-unparsable dichotomy at `"{x}"`; and
the error direction at a bracketless reply. -/
theorem extract_recovery_spec_witness :
    (∃ w, extractAndParseJSON "noise \x7b\"a\": 1\x7d tail".data = .ok w) ∧
    ((∃ v, extractAndParseJSON "\x7bx\x7d".data = .ok v) ∨
      extractAndParseJSON "\x7bx\x7d".data = .error .unparsable) ∧
    cleanAndParse (preprocessReply "no json here".data) = none :=
  ⟨extract_recovery_spec.2.1 "noise \x7b\"a\": 1\x7d tail".data "\x7b\"a\": 1\x7d".data
      (.obj [("a", .num 1)]) rfl rfl,
   extract_recovery_spec.1 "\x7bx\x7d".data (by decide),
   (extract_recovery_spec.2.2 "no json here".data rfl).1⟩

/-- C1 counterexample: `"{x}"` contains a balanced brace span (found by the
string-aware walk), yet recovery raises the unparsable error — so a
balanced bracket/brace structure is not sufficient for success. -/
theorem extract_balanced_not_sufficient :
    findBalancedJSON (preprocessReply "\x7bx\x7d".data) = some "\x7bx\x7d".data ∧
    extractAndParseJSON "\x7bx\x7d".data = .error .unparsable := ⟨rfl, rfl⟩

/-- C5 (code bug): the normalization pass does replace typographic quotes
and strip line/block comments, and it removes a trailing comma before a
closing brace — but its literal character class is `[}` ``` `]`, so a
trailing comma before a closing BRACKET survives and `[1,2,]` is
unrecoverable, while the spec-worded class (`}` or `]`) recovers it. -/
theorem trailingComma_class_bug :
    cleanAndParse "[1,2,]".data = none ∧
    cleanAndParseSpec "[1,2,]".data = some (.arr [.num 1, .num 2]) ∧
    extractAndParseJSON "[1,2,]".data = .error .unparsable ∧
    cleanAndParse "\x7b\"a\":1,\x7d".data = some (.obj [("a", .num 1)]) ∧
    cleanAndParse "“ok”".data = some (.str "ok") ∧
    cleanAndParse "[1] // note".data = some (.arr [.num 1]) ∧
    cleanAndParse "/* x */ [1]".data = some (.arr [.num 1]) :=
  ⟨rfl, rfl, rfl, rfl, rfl, rfl, rfl⟩

/-- C9 (amended): the posting fetcher is total — any thrown error and a
null Readability article both yield the fixed sentinel, a parsed article
yields its collapsed, clamped text (an article with empty text yields the
empty string, not the sentinel) — and with 3 failed URLs the combined
posting text is three sentinels joined by the separator, while the
analysis value is still a populated object. -/
theorem fetch_failure_sentinel :
    (∀ o : FetchOutcome, getJobDescriptionWithReadability o = SENTINEL_JD ∨
      ∃ t, o = .success (some t) ∧ getJobDescriptionWithReadability o
        = String.mk (clampText (jsTrim (collapseWs (t.data.length + 1) t.data))
            LIMITS_jobSingleChars)) ∧
    getJobDescriptionWithReadability .failure = SENTINEL_JD ∧
    getJobDescriptionWithReadability (.success none) = SENTINEL_JD ∧
    combinedJD [getJobDescriptionWithReadability .failure,
                getJobDescriptionWithReadability .failure,
                getJobDescriptionWithReadability .failure]
      = "Nie udało się pobrać treści ogłoszenia.\n\n---\n\nNie udało się pobrać treści ogłoszenia.\n\n---\n\nNie udało się pobrać treści ogłoszenia." ∧
    (∀ (llmRaw : List Char) (kw : Nat), isObjVal (analyzeAnalysis llmRaw kw) = true) := by
  refine ⟨?_, rfl, rfl, rfl, ?_⟩
  · intro o
    cases o with
    | failure => exact Or.inl rfl
    | success a =>
      cases a with
      | none => exact Or.inl rfl
      | some t => exact Or.inr ⟨t, rfl, rfl⟩
  · intro llmRaw kw
    cases hex : extractAndParseJSON llmRaw with
    | error e =>
      simp only [analyzeAnalysis, hex]
      rfl
    | ok parsed =>
      cases hsh : ensureAnalysisShape parsed with
      | error e =>
        simp only [analyzeAnalysis, hex, hsh]
        rfl
      | ok A =>
        have hnull : parsed ≠ JSValue.null := by
          rintro rfl
          exact Except.noConfusion hsh
        obtain ⟨p0, _, hshape⟩ := ensureShape_ok parsed hnull
        rw [hsh] at hshape
        have hA := Except.ok.inj hshape
        subst hA
        simp only [analyzeAnalysis, hex, hsh]
        rfl

set_option maxRecDepth 4000 in
/-- C9 counterexample: with 3 failing URLs the combined posting text is NOT
equal to the single sentinel placeholder string (it is three joined
copies), and an article with empty extracted text yields `""`, not the
sentinel. -/
theorem fetch_combined_cex :
    combinedJD [getJobDescriptionWithReadability .failure,
                getJobDescriptionWithReadability .failure,
                getJobDescriptionWithReadability .failure] ≠ SENTINEL_JD ∧
    getJobDescriptionWithReadability (.success (some "")) = "" ∧
    ("" : String) ≠ SENTINEL_JD := by
  refine ⟨by decide, rfl, by decide⟩

end CvAnalyzer
